import Mathlib

/-!
Shallow embedding of the Warsaw pool ranking rating engine
(backend/src/rating/{types,weighting,bradley_terry}.rs,
backend/src/config/settings.rs, backend/src/services/processing.rs).

Modelling conventions:
* Rust `f64` arithmetic is modelled over the real numbers `ℝ`
  (`std::f64::consts::LN_2` becomes `Real.log 2`, `exp`/`ln` become
  `Real.exp`/`Real.log`).
* Rust `i32`/`i64` counters and ids are modelled as `ℤ`; the lossy
  `as i32` cast is modelled with `Int.bmod · (2 ^ 32)`.
* `chrono::NaiveDateTime` is modelled as an integer count of seconds;
  `Duration::num_days` is truncating division by 86400 (toward zero).
* `HashMap` accumulators are modelled as total functions with default 0,
  which is exactly what `entry/or_insert(0)` + `get.unwrap_or(&0)` build.
* `ndarray::Array1/Array2` are modelled as functions from `ℕ` (only the
  indices `< n` are ever read by the algorithm, as in the source).
-/

namespace PoolRanking

/-- Model of `rating::types::ConfidenceLevel`. -/
inductive ConfidenceLevel where
  | Unranked
  | Provisional
  | Emerging
  | Established
deriving DecidableEq, Repr

/-- Model of `ConfidenceLevel::from_games_played` (rating/types.rs). -/
def ConfidenceLevel.from_games_played (games : ℤ) : ConfidenceLevel :=
  if games < 10 then .Unranked
  else if games < 50 then .Provisional
  else if games < 200 then .Emerging
  else .Established

/-- Model of `ConfidenceLevel::as_str` (rating/types.rs). -/
def ConfidenceLevel.as_str : ConfidenceLevel → String
  | .Unranked => "unranked"
  | .Provisional => "provisional"
  | .Emerging => "emerging"
  | .Established => "established"

/-- Model of `rating::types::GameResult` (weights live in `ℝ`, ids in `ℤ`). -/
structure GameResult where
  winner_id : ℤ
  loser_id : ℤ
  weight : ℝ

/-- Model of `rating::types::PlayerRating`. -/
structure PlayerRating where
  player_id : ℤ
  rating_type : String
  rating : ℝ
  games_played : ℤ
  confidence_level : ConfidenceLevel

/-- Model of `config::settings::RatingPeriod`. -/
structure RatingPeriod where
  name : String
  years : Option ℕ

/-- Model of `config::settings::RatingSettings`. -/
structure RatingSettings where
  starter_rating : ℝ
  virtual_games_weight : ℝ
  min_ranked_games : ℤ
  established_games : ℤ
  convergence_tolerance : ℝ
  max_iterations : ℕ
  periods : List RatingPeriod

/-- Model of `RatingSettings::default` (config/settings.rs). -/
def RatingSettings.default : RatingSettings where
  starter_rating := 500
  virtual_games_weight := 5
  min_ranked_games := 50
  established_games := 200
  convergence_tolerance := 1e-6
  max_iterations := 100
  periods :=
    [⟨"all", none⟩, ⟨"1y", some 1⟩, ⟨"2y", some 2⟩, ⟨"3y", some 3⟩,
     ⟨"4y", some 4⟩, ⟨"5y", some 5⟩]

/-! ### Recency Weighter (rating/weighting.rs) -/

/-- Value of the constant `HALF_LIFE_DAYS` (3 years in days). -/
def HALF_LIFE_DAYS : ℝ := 1095

/-- Model of `calculate_age_days`: `current.signed_duration_since(game)`
in seconds, `Duration::num_days` (truncating division by 86400), then
`.max(0)`. -/
def calculate_age_days (game_date current_date : ℤ) : ℤ :=
  max (Int.tdiv (current_date - game_date) 86400) 0

/-- Model of `apply_exponential_decay`:
`exp (-(ln 2 / HALF_LIFE_DAYS) * age_days)`. -/
noncomputable def apply_exponential_decay (age_days : ℤ) : ℝ :=
  Real.exp (-(Real.log 2 / HALF_LIFE_DAYS) * (age_days : ℝ))

/-- Model of `weighting::calculate_weight`. -/
noncomputable def calculate_weight (game_date current_date : ℤ) : ℝ :=
  apply_exponential_decay (calculate_age_days game_date current_date)

/-- Model of `domain::ExpandedGame` (the fields the engine reads). -/
structure ExpandedGame where
  winner_id : ℤ
  loser_id : ℤ
  date : ℤ
  weight : ℝ

/-- Model of `weighting::apply_weights_to_games`: overwrite every game's
weight from its date and the current date. -/
noncomputable def apply_weights_to_games (games : List ExpandedGame) (current_date : ℤ) :
    List ExpandedGame :=
  games.map fun g => { g with weight := calculate_weight g.date current_date }

/-! ### Strength Solver (rating/bradley_terry.rs) -/

/-- Model of `Vec::dedup` (removes consecutive duplicates). -/
def dedupConsec : List ℤ → List ℤ
  | [] => []
  | [a] => [a]
  | a :: b :: rest =>
      if a = b then dedupConsec (b :: rest) else a :: dedupConsec (b :: rest)

/-- Model of `extract_player_ids`: flat-map winner/loser ids,
`sort_unstable`, `dedup`. -/
def extract_player_ids (games : List GameResult) : List ℤ :=
  dedupConsec
    (List.insertionSort (· ≤ ·)
      (games.flatMap fun g => [g.winner_id, g.loser_id]))

/-- Model of `count_games_per_player`: the `HashMap` of `+= 1` updates,
read back with default 0. -/
def count_games_per_player (games : List GameResult) : ℤ → ℤ := fun p =>
  (games.map fun g =>
    (if g.winner_id = p then (1 : ℤ) else 0) +
    (if g.loser_id = p then (1 : ℤ) else 0)).sum

/-- One `for game in games` step of `build_comparison_data`: add the
game's weight at `[[i,j]]` and `[[j,i]]` of the comparison matrix and at
`[i]` of the wins vector. -/
def buildStep (idx : ℤ → ℕ) (acc : (ℕ → ℕ → ℝ) × (ℕ → ℝ)) (g : GameResult) :
    (ℕ → ℕ → ℝ) × (ℕ → ℝ) :=
  let i := idx g.winner_id
  let j := idx g.loser_id
  (fun a b => acc.1 a b +
      (if a = i ∧ b = j then g.weight else 0) +
      (if a = j ∧ b = i then g.weight else 0),
   fun a => acc.2 a + (if a = i then g.weight else 0))

/-- Model of `build_comparison_data`: fold `buildStep` over the games,
starting from all-zero accumulators. -/
def build_comparison_data (games : List GameResult) (idx : ℤ → ℕ) :
    (ℕ → ℕ → ℝ) × (ℕ → ℝ) :=
  games.foldl (buildStep idx) (fun _ _ => 0, fun _ => 0)

/-- Model of one inner-loop body of `mm_algorithm`: the MM update for
index `i` (denominator over opponents with positive comparison count,
plus the virtual-games term; fallback to the previous value if the
denominator is not positive). -/
noncomputable def mmUpdate (n : ℕ) (C : ℕ → ℕ → ℝ) (W : ℕ → ℝ)
    (config : RatingSettings) (log_gamma : ℕ → ℝ) (i : ℕ) : ℝ :=
  let gamma_i := Real.exp (log_gamma i)
  let denominator :=
    (∑ j ∈ Finset.range n,
      if j ≠ i ∧ 0 < C i j then C i j / (gamma_i + Real.exp (log_gamma j))
      else 0) +
    config.virtual_games_weight / (gamma_i + 1)
  let adjusted_wins := W i + 0.5 * config.virtual_games_weight
  if 0 < denominator then Real.log (adjusted_wins / denominator)
  else log_gamma i

/-- Model of the normalization step: subtract the mean (`mean()` is
`sum / n`, and `unwrap_or(0.0)` coincides with `ℝ` division by zero). -/
noncomputable def mmNormalize (n : ℕ) (v : ℕ → ℝ) : ℕ → ℝ := fun i =>
  v i - (∑ j ∈ Finset.range n, v j) / (n : ℝ)

/-- One full iteration of `mm_algorithm`: MM update for every index,
then normalize to mean 0. -/
noncomputable def mmStep (n : ℕ) (C : ℕ → ℕ → ℝ) (W : ℕ → ℝ)
    (config : RatingSettings) (log_gamma : ℕ → ℝ) : ℕ → ℝ :=
  mmNormalize n (fun i => mmUpdate n C W config log_gamma i)

/-- Model of the convergence measure: fold `max` over the absolute
entrywise differences, starting from `0.0`. -/
noncomputable def maxDiff (n : ℕ) (new_lg old_lg : ℕ → ℝ) : ℝ :=
  ((List.range n).map fun i => |new_lg i - old_lg i|).foldl max 0

/-- Model of the bounded iteration loop of `mm_algorithm`: run `mmStep`,
stop early when `maxDiff < convergence_tolerance`, otherwise continue
with the remaining iteration budget. -/
noncomputable def mmLoop (n : ℕ) (C : ℕ → ℕ → ℝ) (W : ℕ → ℝ)
    (config : RatingSettings) : ℕ → (ℕ → ℝ) → (ℕ → ℝ)
  | 0, log_gamma => log_gamma
  | fuel + 1, log_gamma =>
      let new_log_gamma := mmStep n C W config log_gamma
      if maxDiff n new_log_gamma log_gamma < config.convergence_tolerance then
        new_log_gamma
      else
        mmLoop n C W config fuel new_log_gamma

/-- Model of `mm_algorithm`: start from all-zero log-ratings and iterate
up to `max_iterations` times. -/
noncomputable def mm_algorithm (n : ℕ) (C : ℕ → ℕ → ℝ) (W : ℕ → ℝ)
    (config : RatingSettings) : ℕ → ℝ :=
  mmLoop n C W config config.max_iterations (fun _ => 0)

/-! ### Rating Blender (tail of rating/bradley_terry.rs) -/

/-- Model of `f64::clamp`. -/
def clampR (x lo hi : ℝ) : ℝ := min (max x lo) hi

/-- Value of the `else` branch of `build_player_ratings` before the
clamp: the Fargo-scale conversion followed by the blending step for
players below `established_games`. -/
noncomputable def blendedScore (log_rating : ℝ) (games_played : ℤ)
    (config : RatingSettings) : ℝ :=
  let raw := config.starter_rating + log_rating * 100 / Real.log 2
  if games_played < config.established_games then
    let starter_weight :=
      ((config.established_games - games_played : ℤ) : ℝ) /
        ((config.established_games : ℤ) : ℝ)
    let ml_weight := 1 - starter_weight
    starter_weight * config.starter_rating + ml_weight * raw
  else raw

/-- The per-player rating value computed inside `build_player_ratings`:
`starter_rating` below `min_ranked_games`, otherwise the blended score
clamped to `[0, 2000]`. -/
noncomputable def ratingValue (log_rating : ℝ) (games_played : ℤ)
    (config : RatingSettings) : ℝ :=
  if games_played < config.min_ranked_games then config.starter_rating
  else clampR (blendedScore log_rating games_played config) 0 2000

/-- Model of `build_player_ratings`: one `PlayerRating` per entry of
`player_ids` (in order), reading the log-rating at the player's dense
index and the game count from the counts map. -/
noncomputable def build_player_ratings (player_ids : List ℤ) (log_ratings : ℕ → ℝ)
    (games_count : ℤ → ℤ) (config : RatingSettings) : List PlayerRating :=
  (List.range player_ids.length).map fun idx =>
    let player_id := player_ids.getD idx 0
    let games_played := games_count player_id
    { player_id := player_id
      rating_type := "temp"
      rating := ratingValue (log_ratings idx) games_played config
      games_played := games_played
      confidence_level := ConfidenceLevel.from_games_played games_played }

/-- Model of `calculate_ratings` (rating/bradley_terry.rs): dense index
assignment, game counting, comparison data, MM solve, then blending. -/
noncomputable def calculate_ratings (games : List GameResult)
    (config : RatingSettings) : List PlayerRating :=
  let player_ids := extract_player_ids games
  let n_players := player_ids.length
  let player_to_idx : ℤ → ℕ := fun p => player_ids.indexOf p
  let games_count := count_games_per_player games
  let cw := build_comparison_data games player_to_idx
  let log_ratings := mm_algorithm n_players cw.1 cw.2 config
  build_player_ratings player_ids log_ratings games_count config

/-! ### Period Orchestrator (services/processing.rs)

The orchestrator is modelled against an abstract filesystem
`FS := String → Option DB`: `ProcessingService::run` computes everything
into `db_path ++ ".tmp"` and then publishes with a single
`std::fs::rename`, whose POSIX atomic-replace semantics is the model's
`renameFS`.  Upstream ingestion (cuescore scraping, tournament
expansion, doubles filtering) is outside the rating engine (spec section
1 treats it as an external collaborator): the cache is modelled as
already containing the expanded games that `process_tournaments`
produces, and the two injected failure flags (`save_ok`, `rename_ok`)
model the fallible database-insert and rename I/O calls. -/

/-- Model of one row written by `database::ratings::insert_rating`
(players are keyed here by their cuescore id; the sqlite surrogate
integer key is not modelled). -/
structure RatingRow where
  player_id : ℤ
  rating_type : String
  rating : ℝ
  games_played : ℤ
  confidence_level : String
  calculated_at : ℤ

/-- Content of one database file: the games inserted by
`process_tournaments` (inserted before the decay weights are applied,
as in the source) and the rating rows inserted by `save_ratings_to_db`. -/
structure DB where
  games : List ExpandedGame
  ratings : List RatingRow

/-- The empty database produced by `reset_database`. -/
def DB.empty : DB := { games := [], ratings := [] }

/-- Abstract filesystem: a file path either holds a database or nothing. -/
def FS : Type := String → Option DB

/-- Model of `std::fs::remove_file`. -/
def removeFS (fs : FS) (path : String) : FS := fun p =>
  if p = path then none else fs p

/-- Model of writing (creating or overwriting) a database file. -/
def writeFS (fs : FS) (path : String) (db : DB) : FS := fun p =>
  if p = path then some db else fs p

/-- Model of `std::fs::rename src dst`: atomically moves the content at
`src` over `dst` in one indivisible operation. -/
def renameFS (fs : FS) (src dst : String) : FS := fun p =>
  if p = dst then fs src else if p = src then none else fs p

/-- Inputs of one recomputation cycle: the configuration, the cached
(already expanded) match history, the wall clock, the target path, and
the outcomes of the two fallible I/O interactions. -/
structure Env where
  config : RatingSettings
  cache : Option (List ExpandedGame)
  now : ℤ
  db_path : String
  save_ok : Bool
  rename_ok : Bool

/-- Model of `convert_to_game_results`: project each expanded game to a
`GameResult`, casting the `i64` ids to `i32`. -/
def convert_to_game_results (games : List ExpandedGame) : List GameResult :=
  games.map fun g =>
    { winner_id := Int.bmod g.winner_id (2 ^ 32)
      loser_id := Int.bmod g.loser_id (2 ^ 32)
      weight := g.weight }

/-- Model of the per-period body of `process_to_db`: filter the weighted
games by the period cutoff (`Utc::now() - Duration::days(years * 365)`,
no filter for the all-time period), compute ratings, overwrite
`rating_type` with the period name (`calculate_player_ratings`), and
turn each rating into the row `save_ratings_to_db` inserts. -/
noncomputable def periodRows (config : RatingSettings) (now : ℤ)
    (weighted_games : List ExpandedGame) (period : RatingPeriod) :
    List RatingRow :=
  let filtered := match period.years with
    | some years =>
        weighted_games.filter fun g =>
          now - (years : ℤ) * 365 * 86400 ≤ g.date
    | none => weighted_games
  let ratings := calculate_ratings (convert_to_game_results filtered) config
  ratings.map fun r =>
    { player_id := r.player_id
      rating_type := period.name
      rating := r.rating
      games_played := r.games_played
      confidence_level := r.confidence_level.as_str
      calculated_at := now }

/-- The complete database content a successful cycle computes: all the
expanded games plus the rating rows of every configured period, with the
decay weights applied once to the full history before any period
filtering. -/
noncomputable def fullDB (config : RatingSettings) (now : ℤ)
    (all_games : List ExpandedGame) : DB :=
  let weighted := apply_weights_to_games all_games now
  { games := all_games
    ratings := config.periods.flatMap fun period =>
        periodRows config now weighted period }

/-- Errors surfaced by a cycle. -/
inductive CycleError where
  | noTournaments
  | saveFailed
  | renameFailed
deriving DecidableEq, Repr

/-- Model of `process_to_db`: reset the database at `path`, load the
match history from the cache (error if absent), insert the games, then
compute and insert the rating rows of every period (an injected insert
failure aborts after the games were written).  Every write of this
function happens at `path`. -/
noncomputable def process_to_db (env : Env) (path : String) (fs : FS) :
    FS × Except CycleError Unit :=
  let fs1 := writeFS fs path DB.empty
  match env.cache with
  | none => (fs1, .error .noTournaments)
  | some all_games =>
      let fs2 := writeFS fs1 path { DB.empty with games := all_games }
      let db := fullDB env.config env.now all_games
      if env.save_ok ∨ db.ratings.isEmpty then
        (writeFS fs2 path db, .ok ())
      else
        (fs2, .error .saveFailed)

/-- Model of `ProcessingService::run`: clean up a leftover temp file,
compute everything into `db_path ++ ".tmp"`, then atomically rename the
temp file over the published database.  Any error before the rename, or
a failing rename, returns without a swap. -/
noncomputable def run (env : Env) (fs : FS) : FS × Except CycleError Unit :=
  let temp_db_path := env.db_path ++ ".tmp"
  let fs0 := removeFS fs temp_db_path
  match process_to_db env temp_db_path fs0 with
  | (fs1, .error e) => (fs1, .error e)
  | (fs1, .ok _) =>
      if env.rename_ok then
        (renameFS fs1 temp_db_path env.db_path, .ok ())
      else
        (fs1, .error .renameFailed)

/-- Every filesystem state a reader could observe during a cycle, in
order: the initial state, the state after the temp-file cleanup, the
state after `process_to_db`, and the final state. -/
noncomputable def runTrace (env : Env) (fs : FS) : List FS :=
  let temp_db_path := env.db_path ++ ".tmp"
  let fs0 := removeFS fs temp_db_path
  let step := process_to_db env temp_db_path fs0
  [fs, fs0, step.1, (run env fs).1]

/-- The comparison matrix and wins vector `calculate_ratings` builds for
an input (dense indices come from the sorted deduplicated id list). -/
def solverInput (games : List GameResult) : (ℕ → ℕ → ℝ) × (ℕ → ℝ) :=
  build_comparison_data games (fun p => (extract_player_ids games).indexOf p)

/-- The solver output `calculate_ratings` computes for an input. -/
noncomputable def solverOf (games : List GameResult)
    (config : RatingSettings) : ℕ → ℝ :=
  mm_algorithm (extract_player_ids games).length (solverInput games).1
    (solverInput games).2 config

/-- The game count of the competitor at dense index `idx`. -/
def countOf (games : List GameResult) (idx : ℕ) : ℤ :=
  count_games_per_player games ((extract_player_ids games).getD idx 0)

/-! ### Concrete inputs and configurations used by the development -/

/-- The two-match scenario of spec section 8: A (id 1) beats B (id 2)
with weight 1.0 and B beats C (id 3) with weight 1.0; no A-C match. -/
def gamesABC : List GameResult := [⟨1, 2, 1⟩, ⟨2, 3, 1⟩]

/-- The solver run `calculate_ratings` performs on `gamesABC`: dense ids
`[1, 2, 3]`, so index 0 is A, index 1 is B, index 2 is C. -/
noncomputable def solverABC (config : RatingSettings) : ℕ → ℝ :=
  solverOf gamesABC config

/-- A configuration with positive `virtual_games_weight` but a zero
iteration budget. -/
def cfgIter0 : RatingSettings :=
  { starter_rating := 500, virtual_games_weight := 1, min_ranked_games := 50,
    established_games := 200, convergence_tolerance := 1e-6,
    max_iterations := 0, periods := [] }

/-- A configuration with positive `virtual_games_weight` and one
iteration. -/
def cfgIter1 : RatingSettings :=
  { starter_rating := 500, virtual_games_weight := 1, min_ranked_games := 50,
    established_games := 200, convergence_tolerance := 1e-6,
    max_iterations := 1, periods := [] }

/-- Two players with identical opponents (player 3) and identical game
counts where player 1 won and player 2 lost. -/
def games4 : List GameResult := [⟨1, 3, 1⟩, ⟨3, 2, 1⟩]

/-- One game between two players; under the row-equality hypothesis on
third parties (vacuous for two players) this instantiates the amended
monotonicity claim. -/
def games2 : List GameResult := [⟨1, 2, 1⟩]

/-- Configuration used by the monotonicity witness: players are ranked
from one game on, never blended, one MM iteration. -/
def cfgW4 : RatingSettings :=
  { starter_rating := 500, virtual_games_weight := 2, min_ranked_games := 1,
    established_games := 1, convergence_tolerance := 1,
    max_iterations := 1, periods := [] }

/-- Default record used to read a list entry whose index is known to be
in bounds. -/
def dfltRating : PlayerRating := ⟨0, "", 0, 0, .Unranked⟩

/-- A configuration whose starter rating lies outside `[0, 2000]`. -/
def cfgStarter3000 : RatingSettings :=
  { starter_rating := 3000, virtual_games_weight := 5,
    min_ranked_games := 50, established_games := 200,
    convergence_tolerance := 1e-6, max_iterations := 100, periods := [] }

/-- A configuration in which every player is ranked and unblended, so
the published score is the clamped raw score. -/
def cfgNoBlend : RatingSettings :=
  { starter_rating := 500, virtual_games_weight := 5, min_ranked_games := 0,
    established_games := 0, convergence_tolerance := 1e-6,
    max_iterations := 100, periods := [] }

/-- Modelled from the claim of C5 as amended: the published score is
`starterRating` below `minRankedGames`, otherwise the linear blend of
`starterRating` and `rawScore = starterRating + logGamma * 100 / ln 2`
(with `starterWeight = (establishedGames - games) / establishedGames`
below `establishedGames`, and `rawScore` itself from there on), clamped
to `[0, 2000]`. -/
noncomputable def blenderSpecClamped (log_gamma : ℝ) (games_played : ℤ)
    (config : RatingSettings) : ℝ :=
  if games_played < config.min_ranked_games then config.starter_rating
  else
    let rawScore := config.starter_rating + log_gamma * 100 / Real.log 2
    let score :=
      if games_played < config.established_games then
        let starterWeight :=
          ((config.established_games - games_played : ℤ) : ℝ) /
            ((config.established_games : ℤ) : ℝ)
        starterWeight * config.starter_rating + (1 - starterWeight) * rawScore
      else rawScore
    clampR score 0 2000

/-- A cycle whose cache is empty, so Loading fails. -/
def envLoadFail : Env :=
  { config := RatingSettings.default, cache := none, now := 0,
    db_path := "ranking.db", save_ok := true, rename_ok := true }

/-- A cycle over an empty match history with every I/O step succeeding. -/
def envOkEmpty : Env :=
  { config := RatingSettings.default, cache := some [], now := 0,
    db_path := "ranking.db", save_ok := true, rename_ok := true }

/-- A cycle configured with an empty period list, everything else
well-formed. -/
def envEmptyPeriods : Env :=
  { config := { RatingSettings.default with periods := [] },
    cache := some [], now := 0, db_path := "ranking.db",
    save_ok := true, rename_ok := true }

/-- An initial filesystem that already holds a published database. -/
def fsPublished : FS := fun p =>
  if p = "ranking.db" then some DB.empty else none

/-! ### Gauge fixing: the normalization keeps the mean at zero -/

lemma sum_mmNormalize (n : ℕ) (hn : 0 < n) (v : ℕ → ℝ) :
    ∑ i ∈ Finset.range n, mmNormalize n v i = 0 := by
  have hne : (n : ℝ) ≠ 0 := Nat.cast_ne_zero.mpr hn.ne'
  simp only [mmNormalize]
  rw [Finset.sum_sub_distrib, Finset.sum_const, Finset.card_range,
    nsmul_eq_mul]
  field_simp

lemma sum_mmStep (n : ℕ) (hn : 0 < n) (C : ℕ → ℕ → ℝ) (W : ℕ → ℝ)
    (config : RatingSettings) (lg : ℕ → ℝ) :
    ∑ i ∈ Finset.range n, mmStep n C W config lg i = 0 :=
  sum_mmNormalize n hn _

lemma sum_mmLoop (n : ℕ) (hn : 0 < n) (C : ℕ → ℕ → ℝ) (W : ℕ → ℝ)
    (config : RatingSettings) :
    ∀ (fuel : ℕ) (lg : ℕ → ℝ), (∑ i ∈ Finset.range n, lg i) = 0 →
      ∑ i ∈ Finset.range n, mmLoop n C W config fuel lg i = 0
  | 0, _, h => h
  | fuel + 1, lg, _ => by
      rw [mmLoop]
      split
      · exact sum_mmStep n hn C W config lg
      · exact sum_mmLoop n hn C W config fuel _ (sum_mmStep n hn C W config lg)

/-- Claim C2: for every non-empty input, the vector of log-strengths
produced by the MM algorithm has mean 0 — the solver subtracts the mean
of the updated values from every entry after each iteration, before the
convergence check and before returning. -/
theorem claim_C2_solver_mean_zero (n : ℕ) (C : ℕ → ℕ → ℝ) (W : ℕ → ℝ)
    (config : RatingSettings) (hn : 0 < n) :
    (∑ i ∈ Finset.range n, mm_algorithm n C W config i) = 0 ∧
    (∑ i ∈ Finset.range n, mm_algorithm n C W config i) / (n : ℝ) = 0 := by
  have h : ∑ i ∈ Finset.range n, mm_algorithm n C W config i = 0 := by
    rw [mm_algorithm]
    exact sum_mmLoop n hn C W config config.max_iterations _ (by simp)
  exact ⟨h, by rw [h]; simp⟩

/-- Witness for C2 at a concrete one-player input. -/
theorem claim_C2_witness :
    0 < 1 ∧
    ((∑ i ∈ Finset.range 1,
        mm_algorithm 1 (fun _ _ => 0) (fun _ => 0) RatingSettings.default i)
          = 0 ∧
      (∑ i ∈ Finset.range 1,
        mm_algorithm 1 (fun _ _ => 0) (fun _ => 0) RatingSettings.default i)
          / ((1 : ℕ) : ℝ) = 0) :=
  ⟨Nat.one_pos,
    claim_C2_solver_mean_zero 1 (fun _ _ => 0) (fun _ => 0)
      RatingSettings.default Nat.one_pos⟩

/-! ### The recency weight -/

/-- Claim C8: the recency weight is `exp(-(ln 2 / half_life) * age)`
with `age = max(0, whole days from match date to reference date)`, and
a match dated in the future or on the reference date gets weight
exactly 1. -/
theorem claim_C8_recency_weight (game_date current_date : ℤ) :
    calculate_weight game_date current_date =
      Real.exp (-(Real.log 2 / 1095) *
        ((max 0 (Int.tdiv (current_date - game_date) 86400) : ℤ) : ℝ)) ∧
    (current_date ≤ game_date → calculate_weight game_date current_date = 1) := by
  constructor
  · rw [calculate_weight, apply_exponential_decay, calculate_age_days,
      HALF_LIFE_DAYS, max_comm]
  · intro h
    have hd : current_date - game_date ≤ 0 := by omega
    have ht : Int.tdiv (current_date - game_date) 86400 ≤ 0 := by
      have h1 : 0 ≤ Int.tdiv (-(current_date - game_date)) 86400 :=
        Int.tdiv_nonneg (by omega) (by norm_num)
      rw [Int.neg_tdiv] at h1
      omega
    have hage : calculate_age_days game_date current_date = 0 := by
      rw [calculate_age_days]; omega
    rw [calculate_weight, hage, apply_exponential_decay]
    simp

/-- Witness for C8: a match dated strictly after the reference date has
weight exactly 1. -/
theorem claim_C8_witness : (0 : ℤ) ≤ 5 ∧ calculate_weight 5 0 = 1 :=
  ⟨by decide, (claim_C8_recency_weight 5 0).2 (by decide)⟩

/-! ### Structure of the id list and the output list -/

lemma mem_dedupConsec : ∀ (l : List ℤ) (x : ℤ), x ∈ dedupConsec l ↔ x ∈ l
  | [], _ => Iff.rfl
  | [_], _ => Iff.rfl
  | a :: b :: rest, x => by
      rw [dedupConsec]
      by_cases h : a = b
      · subst h
        rw [if_pos rfl, mem_dedupConsec]
        simp only [List.mem_cons]
        tauto
      · rw [if_neg h]
        simp only [List.mem_cons, mem_dedupConsec (b :: rest) x]

lemma sorted_lt_dedupConsec :
    ∀ l : List ℤ, l.Sorted (· ≤ ·) → (dedupConsec l).Sorted (· < ·)
  | [], _ => List.sorted_nil
  | [a], _ => List.sorted_singleton a
  | a :: b :: rest, h => by
      have htail : (b :: rest).Sorted (· ≤ ·) := h.tail
      have hab : a ≤ b := (List.sorted_cons.mp h).1 b (by simp)
      rw [dedupConsec]
      by_cases hEq : a = b
      · rw [if_pos hEq]
        exact sorted_lt_dedupConsec (b :: rest) htail
      · rw [if_neg hEq]
        refine List.sorted_cons.mpr ⟨?_, sorted_lt_dedupConsec (b :: rest) htail⟩
        intro x hx
        have hxmem : x ∈ b :: rest := (mem_dedupConsec _ _).mp hx
        rcases List.mem_cons.mp hxmem with hxb | hxrest
        · subst hxb; exact lt_of_le_of_ne hab hEq
        · have hbx : b ≤ x := (List.sorted_cons.mp htail).1 x hxrest
          exact lt_of_lt_of_le (lt_of_le_of_ne hab hEq) hbx

lemma extract_player_ids_nodup (games : List GameResult) :
    (extract_player_ids games).Nodup :=
  (sorted_lt_dedupConsec _ (List.sorted_insertionSort (· ≤ ·) _)).nodup

lemma mem_extract_player_ids (games : List GameResult) (p : ℤ) :
    p ∈ extract_player_ids games ↔
      ∃ g ∈ games, g.winner_id = p ∨ g.loser_id = p := by
  rw [extract_player_ids, mem_dedupConsec,
    (List.perm_insertionSort (· ≤ ·) _).mem_iff]
  simp only [List.mem_flatMap, List.mem_cons, List.not_mem_nil, or_false]
  constructor
  · rintro ⟨g, hg, h | h⟩
    · exact ⟨g, hg, Or.inl h.symm⟩
    · exact ⟨g, hg, Or.inr h.symm⟩
  · rintro ⟨g, hg, h | h⟩
    · exact ⟨g, hg, Or.inl h.symm⟩
    · exact ⟨g, hg, Or.inr h.symm⟩

lemma map_getD_range : ∀ l : List ℤ,
    (List.range l.length).map (fun i => l.getD i 0) = l
  | [] => rfl
  | a :: t => by
      rw [List.length_cons, List.range_succ_eq_map, List.map_cons,
        List.map_map]
      simp only [List.getD_cons_zero, Function.comp_def, List.getD_cons_succ]
      rw [map_getD_range t]

lemma build_player_ratings_map_id (ids : List ℤ) (logs : ℕ → ℝ)
    (counts : ℤ → ℤ) (config : RatingSettings) :
    (build_player_ratings ids logs counts config).map
      (fun r => r.player_id) = ids := by
  rw [build_player_ratings, List.map_map]
  exact map_getD_range ids

lemma calculate_ratings_map_id (games : List GameResult)
    (config : RatingSettings) :
    (calculate_ratings games config).map (fun r => r.player_id) =
      extract_player_ids games :=
  build_player_ratings_map_id _ _ _ _

lemma calculate_ratings_length (games : List GameResult)
    (config : RatingSettings) :
    (calculate_ratings games config).length =
      (extract_player_ids games).length := by
  have h := congrArg List.length (calculate_ratings_map_id games config)
  rwa [List.length_map] at h

/-- Claim C10: `calculate_ratings` returns exactly one record per
distinct competitor id appearing as winner or loser (dense sorted id
order), the empty input gives the empty output, and each record's
`games_played` is the unweighted appearance count of its competitor. -/
theorem claim_C10_one_record_per_competitor (games : List GameResult)
    (config : RatingSettings) :
    ((calculate_ratings games config).map (fun r => r.player_id) =
      extract_player_ids games) ∧
    (extract_player_ids games).Nodup ∧
    (∀ p : ℤ, p ∈ extract_player_ids games ↔
      ∃ g ∈ games, g.winner_id = p ∨ g.loser_id = p) ∧
    calculate_ratings [] config = [] ∧
    (∀ r ∈ calculate_ratings games config,
      r.games_played = count_games_per_player games r.player_id) := by
  refine ⟨calculate_ratings_map_id games config,
    extract_player_ids_nodup games,
    mem_extract_player_ids games, rfl, ?_⟩
  intro r hr
  rw [calculate_ratings, build_player_ratings] at hr
  obtain ⟨idx, _, hrec⟩ := List.mem_map.mp hr
  subst hrec
  rfl

/-- Witness for C10 at the one-game input: the id list has no
duplicates, and the winner id 1 appears in the input. -/
theorem claim_C10_witness :
    (extract_player_ids [⟨1, 2, 1⟩]).Nodup ∧
    (∃ g ∈ [(⟨1, 2, 1⟩ : GameResult)], g.winner_id = 1 ∨ g.loser_id = 1) :=
  ⟨(claim_C10_one_record_per_competitor [⟨1, 2, 1⟩]
      RatingSettings.default).2.1,
    ((claim_C10_one_record_per_competitor [⟨1, 2, 1⟩]
      RatingSettings.default).2.2.1 1).mp (by decide)⟩

/-! ### The Blender -/

lemma log_two_lt_one : Real.log 2 < 1 :=
  lt_trans Real.log_two_lt_d9 (by norm_num)

lemma log_two_pos : 0 < Real.log 2 := Real.log_pos (by norm_num)

lemma raw_gt_2000 : (2000 : ℝ) < 500 + 16 * 100 / Real.log 2 := by
  have h1 : Real.log 2 * 1500 < 1600 := by
    nlinarith [log_two_lt_one, log_two_pos]
  have h2 : (1500 : ℝ) < 16 * 100 / Real.log 2 := by
    rw [lt_div_iff log_two_pos]
    linarith
  linarith

/-- Counterexample for C5: with every player ranked and unblended and
`logγ = 16`, the code publishes the clamped value 2000, not the claimed
`rawScore = starterRating + logγ * 100 / ln 2` (which exceeds 2000). -/
theorem claim_C5_counterexample :
    ratingValue 16 0 cfgNoBlend ≠
      cfgNoBlend.starter_rating + 16 * 100 / Real.log 2 := by
  have hraw : (2000 : ℝ) <
      cfgNoBlend.starter_rating + 16 * 100 / Real.log 2 := by
    show (2000 : ℝ) < 500 + 16 * 100 / Real.log 2
    exact raw_gt_2000
  have hval : ratingValue 16 0 cfgNoBlend = 2000 := by
    rw [ratingValue, if_neg (by decide), blendedScore, if_neg (by decide)]
    rw [clampR]
    have h2 : (2000 : ℝ) ≤
        cfgNoBlend.starter_rating + 16 * 100 / Real.log 2 := le_of_lt hraw
    rw [max_eq_left (by linarith), min_eq_right h2]
  rw [hval]
  exact fun h => absurd (h ▸ hraw) (lt_irrefl _)

/-- Claim C5 as amended: the published score is exactly the claimed pure
function of `(logγ, games_played, config)` once the final clamp to
`[0, 2000]` (applied in the ranked branch) is added to the formula. -/
theorem claim_C5_blender_formula (log_gamma : ℝ) (games_played : ℤ)
    (config : RatingSettings) :
    ratingValue log_gamma games_played config =
      blenderSpecClamped log_gamma games_played config := by
  rw [ratingValue, blenderSpecClamped]
  rcases lt_or_le games_played config.min_ranked_games with h | h
  · rw [if_pos h, if_pos h]
  · rw [if_neg (not_lt.mpr h), if_neg (not_lt.mpr h), blendedScore]

/-- Counterexample for C6: when `games_played < minRankedGames` the code
publishes `starter_rating` without clamping, so a configuration with
`starter_rating = 3000` publishes a score outside `[0, 2000]`. -/
theorem claim_C6_counterexample :
    ratingValue 0 0 cfgStarter3000 = 3000 ∧
    ¬ ratingValue 0 0 cfgStarter3000 ≤ 2000 := by
  have h : ratingValue 0 0 cfgStarter3000 = 3000 := by
    rw [ratingValue, if_pos (by decide)]
    norm_num [cfgStarter3000]
  exact ⟨h, by rw [h]; norm_num⟩

/-- Claim C6 as amended: the clamp is applied only in the ranked branch,
so the published score lies in `[0, 2000]` whenever
`games_played ≥ minRankedGames` (below that threshold the published
value is `starter_rating`, unclamped). -/
theorem claim_C6_clamped_when_ranked (log_gamma : ℝ) (games_played : ℤ)
    (config : RatingSettings)
    (h : config.min_ranked_games ≤ games_played) :
    0 ≤ ratingValue log_gamma games_played config ∧
    ratingValue log_gamma games_played config ≤ 2000 := by
  rw [ratingValue, if_neg (not_lt.mpr h), clampR]
  constructor
  · exact le_min (le_max_right _ _) (by norm_num)
  · exact min_le_right _ _

/-- Witness for C6 at the default configuration with exactly
`min_ranked_games` games. -/
theorem claim_C6_witness :
    RatingSettings.default.min_ranked_games ≤ 50 ∧
    (0 ≤ ratingValue 3 50 RatingSettings.default ∧
      ratingValue 3 50 RatingSettings.default ≤ 2000) :=
  ⟨by decide, claim_C6_clamped_when_ranked 3 50 RatingSettings.default
    (by decide)⟩

/-! ### The atomic publish cycle -/

lemma db_path_ne_temp (s : String) : s ≠ s ++ ".tmp" := by
  intro h
  have hlen := congrArg String.length h
  rw [String.length_append] at hlen
  have h4 : String.length ".tmp" = 4 := rfl
  omega

lemma process_to_db_preserves (env : Env) (path : String) (fs : FS)
    (p : String) (hp : p ≠ path) :
    (process_to_db env path fs).1 p = fs p := by
  rcases hc : env.cache with _ | games <;>
    simp only [process_to_db, hc]
  · simp [writeFS, hp]
  · split <;> simp [writeFS, hp]

lemma process_to_db_status (env : Env) (path : String) (fs fs' : FS) :
    (process_to_db env path fs).2 = (process_to_db env path fs').2 := by
  rcases hc : env.cache with _ | games <;>
    simp only [process_to_db, hc]
  split <;> rfl

lemma process_to_db_ok_content (env : Env) (path : String) (fs : FS)
    (h : (process_to_db env path fs).2 = .ok ()) :
    ∃ games, env.cache = some games ∧
      (process_to_db env path fs).1 path =
        some (fullDB env.config env.now games) := by
  rcases hc : env.cache with _ | games
  · rw [process_to_db] at h
    simp only [hc] at h
    exact absurd h (by simp)
  · refine ⟨games, rfl, ?_⟩
    simp only [process_to_db, hc] at h ⊢
    split at h
    · split
      · simp [writeFS]
      · simp_all
    · exact absurd h (by simp)

lemma run_trace_preserves (env : Env) (fs : FS) :
    ∀ s ∈ (runTrace env fs).dropLast, s env.db_path = fs env.db_path := by
  have hne : env.db_path ≠ env.db_path ++ ".tmp" := db_path_ne_temp _
  intro s hs
  simp only [runTrace, List.dropLast, List.mem_cons, List.not_mem_nil,
    or_false] at hs
  rcases hs with h | h | h <;> subst h
  · rfl
  · simp [removeFS, hne]
  · rw [process_to_db_preserves env _ _ _ hne]
    simp [removeFS, hne]

lemma run_error_preserves (env : Env) (fs : FS) (e : CycleError)
    (h : (run env fs).2 = .error e) :
    (run env fs).1 env.db_path = fs env.db_path := by
  have hne : env.db_path ≠ env.db_path ++ ".tmp" := db_path_ne_temp _
  have hfs0 : removeFS fs (env.db_path ++ ".tmp") env.db_path
      = fs env.db_path := by simp [removeFS, hne]
  rcases hpr : process_to_db env (env.db_path ++ ".tmp")
      (removeFS fs (env.db_path ++ ".tmp")) with ⟨fs1, st⟩
  have hfs1 : fs1 env.db_path = fs env.db_path := by
    have h2 := process_to_db_preserves env (env.db_path ++ ".tmp")
      (removeFS fs (env.db_path ++ ".tmp")) env.db_path hne
    rw [hpr] at h2
    exact h2.trans hfs0
  rcases st with e' | u
  · simp only [run, hpr] at h ⊢
    exact hfs1
  · simp only [run, hpr] at h ⊢
    rcases hro : env.rename_ok with _ | _
    · simp only [Bool.false_eq_true, if_false]
      exact hfs1
    · rw [hro] at h
      simp at h

lemma run_ok_publishes (env : Env) (fs : FS)
    (h : (run env fs).2 = .ok ()) :
    ∃ games, env.cache = some games ∧
      (run env fs).1 env.db_path =
        some (fullDB env.config env.now games) := by
  rcases hpr : process_to_db env (env.db_path ++ ".tmp")
      (removeFS fs (env.db_path ++ ".tmp")) with ⟨fs1, st⟩
  rcases st with e' | u
  · simp only [run, hpr] at h
    simp at h
  · have hcontent := process_to_db_ok_content env (env.db_path ++ ".tmp")
      (removeFS fs (env.db_path ++ ".tmp")) (by rw [hpr])
    obtain ⟨games, hc, hval⟩ := hcontent
    rw [hpr] at hval
    refine ⟨games, hc, ?_⟩
    simp only [run, hpr] at h ⊢
    rcases hro : env.rename_ok with _ | _
    · rw [hro] at h
      simp at h
    · rw [if_pos rfl]
      simp [renameFS]
      exact hval

lemma run_status_indep (env : Env) (fs fs' : FS) :
    (run env fs).2 = (run env fs').2 := by
  have hst := process_to_db_status env (env.db_path ++ ".tmp")
    (removeFS fs (env.db_path ++ ".tmp"))
    (removeFS fs' (env.db_path ++ ".tmp"))
  rcases hpr : process_to_db env (env.db_path ++ ".tmp")
      (removeFS fs (env.db_path ++ ".tmp")) with ⟨fs1, st⟩
  rcases hpr' : process_to_db env (env.db_path ++ ".tmp")
      (removeFS fs' (env.db_path ++ ".tmp")) with ⟨fs1', st'⟩
  rw [hpr, hpr'] at hst
  simp only at hst
  subst hst
  rcases st with e' | u <;> simp only [run, hpr, hpr']
  split <;> rfl

/-- Claim C1: the recomputation cycle publishes atomically — every state
a reader can observe before the final rename holds the original content
at the published path; an error outcome (load failure, insert failure,
or rename failure) leaves the published content byte-for-byte unchanged;
and a success outcome replaces it in one step with the complete freshly
computed snapshot (all periods' rows). -/
theorem claim_C1_atomic_publish (env : Env) (fs : FS) :
    (∀ s ∈ (runTrace env fs).dropLast, s env.db_path = fs env.db_path) ∧
    (∀ e, (run env fs).2 = .error e →
      (run env fs).1 env.db_path = fs env.db_path) ∧
    ((run env fs).2 = .ok () → ∃ games, env.cache = some games ∧
      (run env fs).1 env.db_path =
        some (fullDB env.config env.now games)) :=
  ⟨run_trace_preserves env fs,
   fun e h => run_error_preserves env fs e h,
   fun h => run_ok_publishes env fs h⟩

/-- Witness for C1: a cycle whose Loading step fails (empty cache)
returns an error and leaves the published database untouched. -/
theorem claim_C1_witness :
    (run envLoadFail fsPublished).2 = .error .noTournaments ∧
    (run envLoadFail fsPublished).1 "ranking.db" =
      fsPublished "ranking.db" :=
  ⟨rfl, (claim_C1_atomic_publish envLoadFail fsPublished).2.1
    .noTournaments rfl⟩

/-- Claim C9: the published outcome of a cycle is a function of the
input (match history, configuration, clock) alone — two runs from any
two prior store states return the same status, and when they succeed
they publish identical content (hence identical rating rows). -/
theorem claim_C9_pipeline_deterministic (env : Env) (fs fs' : FS) :
    (run env fs).2 = (run env fs').2 ∧
    ((run env fs).2 = .ok () →
      (run env fs).1 env.db_path = (run env fs').1 env.db_path) := by
  refine ⟨run_status_indep env fs fs', fun h => ?_⟩
  obtain ⟨games, hc, hval⟩ := run_ok_publishes env fs h
  obtain ⟨games', hc', hval'⟩ := run_ok_publishes env fs'
    ((run_status_indep env fs fs').symm.trans h)
  rw [hc] at hc'
  injection hc' with hgames
  rw [hval, hval', hgames]

/-- Witness for C9: a successful cycle over the empty history publishes
the same content whether it started from a published store or from an
empty filesystem. -/
theorem claim_C9_witness :
    (run envOkEmpty fsPublished).2 = .ok () ∧
    (run envOkEmpty fsPublished).1 "ranking.db" =
      (run envOkEmpty (fun _ => none)).1 "ranking.db" :=
  ⟨rfl, (claim_C9_pipeline_deterministic envOkEmpty fsPublished
    (fun _ => none)).2 rfl⟩

/-- Counterexample for C7: a configuration with an empty period list is
not rejected — the cycle completes successfully. -/
theorem claim_C7_counterexample :
    envEmptyPeriods.config.periods = [] ∧
    (run envEmptyPeriods fsPublished).2 = .ok () :=
  ⟨rfl, rfl⟩

/-- Claim C7 as amended: the cycle performs no configuration validation;
with an empty period list (and a loadable cache and working rename) it
completes successfully and publishes a snapshot containing the games and
zero rating rows.  Non-positive establishedGames merely disables
blending, and the half-life is a compile-time constant, not
configuration. -/
theorem claim_C7_no_config_validation (env : Env) (fs : FS)
    (games : List ExpandedGame) (hc : env.cache = some games)
    (hp : env.config.periods = []) (hr : env.rename_ok = true) :
    (run env fs).2 = .ok () ∧
    (run env fs).1 env.db_path = some { games := games, ratings := [] } := by
  have hdb : fullDB env.config env.now games =
      { games := games, ratings := [] } := by
    rw [fullDB, hp]
    rfl
  have hok : (run env fs).2 = .ok () := by
    rcases hpr : process_to_db env (env.db_path ++ ".tmp")
        (removeFS fs (env.db_path ++ ".tmp")) with ⟨fs1, st⟩
    have hst : st = .ok () := by
      have h2 : (process_to_db env (env.db_path ++ ".tmp")
          (removeFS fs (env.db_path ++ ".tmp"))).2 = .ok () := by
        simp only [process_to_db, hc]
        rw [if_pos (Or.inr (by rw [hdb]; rfl))]
      rwa [hpr] at h2
    subst hst
    simp [run, hpr, hr]
  obtain ⟨games', hc', hval⟩ := run_ok_publishes env fs hok
  rw [hc] at hc'
  injection hc' with hg
  subst hg
  exact ⟨hok, by rw [hval, hdb]⟩

/-- Witness for C7 at the concrete empty-period configuration. -/
theorem claim_C7_witness :
    envEmptyPeriods.cache = some [] ∧
    envEmptyPeriods.config.periods = [] ∧
    envEmptyPeriods.rename_ok = true ∧
    ((run envEmptyPeriods fsPublished).2 = .ok () ∧
      (run envEmptyPeriods fsPublished).1 "ranking.db" =
        some { games := [], ratings := [] }) :=
  ⟨rfl, rfl, rfl,
    claim_C7_no_config_validation envEmptyPeriods fsPublished [] rfl rfl rfl⟩

/-! ### Monotonicity of the MM update -/

lemma build_symm_aux (idx : ℤ → ℕ) :
    ∀ (games : List GameResult) (acc : (ℕ → ℕ → ℝ) × (ℕ → ℝ)),
      (∀ a b, acc.1 a b = acc.1 b a) →
      ∀ a b, (games.foldl (buildStep idx) acc).1 a b =
        (games.foldl (buildStep idx) acc).1 b a
  | [], _, h, a, b => h a b
  | g :: rest, acc, h, a, b => by
      rw [List.foldl_cons]
      refine build_symm_aux idx rest _ ?_ a b
      intro a b
      show acc.1 a b + _ + _ = acc.1 b a + _ + _
      have e1 : (if a = idx g.winner_id ∧ b = idx g.loser_id
          then g.weight else 0) =
          (if b = idx g.loser_id ∧ a = idx g.winner_id
          then g.weight else 0) := if_congr and_comm rfl rfl
      have e2 : (if a = idx g.loser_id ∧ b = idx g.winner_id
          then g.weight else 0) =
          (if b = idx g.winner_id ∧ a = idx g.loser_id
          then g.weight else 0) := if_congr and_comm rfl rfl
      rw [h a b, e1, e2]
      ring

lemma build_comparison_symm (games : List GameResult) (idx : ℤ → ℕ)
    (a b : ℕ) :
    (build_comparison_data games idx).1 a b =
      (build_comparison_data games idx).1 b a :=
  build_symm_aux idx games _ (fun _ _ => rfl) a b

lemma build_wins_nonneg_aux (idx : ℤ → ℕ) :
    ∀ (games : List GameResult) (acc : (ℕ → ℕ → ℝ) × (ℕ → ℝ)),
      (∀ g ∈ games, 0 ≤ g.weight) → (∀ a, 0 ≤ acc.2 a) →
      ∀ a, 0 ≤ (games.foldl (buildStep idx) acc).2 a
  | [], _, _, h, a => h a
  | g :: rest, acc, hw, h, a => by
      rw [List.foldl_cons]
      refine build_wins_nonneg_aux idx rest _
        (fun x hx => hw x (List.mem_cons_of_mem g hx)) ?_ a
      intro a
      show 0 ≤ acc.2 a + _
      have hg : 0 ≤ g.weight := hw g (List.mem_cons_self g rest)
      have ha := h a
      split <;> linarith

lemma build_wins_nonneg (games : List GameResult) (idx : ℤ → ℕ)
    (hw : ∀ g ∈ games, 0 ≤ g.weight) (a : ℕ) :
    0 ≤ (build_comparison_data games idx).2 a :=
  build_wins_nonneg_aux idx games _ hw (fun _ => le_refl 0) a

lemma mmUpdate_def (n : ℕ) (C : ℕ → ℕ → ℝ) (W : ℕ → ℝ)
    (config : RatingSettings) (lg : ℕ → ℝ) (i : ℕ) :
    mmUpdate n C W config lg i =
      if 0 < (∑ j ∈ Finset.range n,
            if j ≠ i ∧ 0 < C i j
            then C i j / (Real.exp (lg i) + Real.exp (lg j)) else 0) +
          config.virtual_games_weight / (Real.exp (lg i) + 1)
      then Real.log ((W i + 0.5 * config.virtual_games_weight) /
        ((∑ j ∈ Finset.range n,
            if j ≠ i ∧ 0 < C i j
            then C i j / (Real.exp (lg i) + Real.exp (lg j)) else 0) +
          config.virtual_games_weight / (Real.exp (lg i) + 1)))
      else lg i := rfl

lemma mmStep_apply (n : ℕ) (C : ℕ → ℕ → ℝ) (W : ℕ → ℝ)
    (config : RatingSettings) (lg : ℕ → ℝ) (i : ℕ) :
    mmStep n C W config lg i = mmUpdate n C W config lg i -
      (∑ j ∈ Finset.range n, mmUpdate n C W config lg j) / (n : ℝ) := rfl

lemma mmUpdate_strict_mono (n : ℕ) (C : ℕ → ℕ → ℝ) (W : ℕ → ℝ)
    (config : RatingSettings) (ip iq : ℕ)
    (hv : 0 < config.virtual_games_weight)
    (hip : ip < n) (hiq : iq < n) (hne : ip ≠ iq)
    (hrow : ∀ j, j < n → j ≠ ip → j ≠ iq → C ip j = C iq j)
    (hsym : C ip iq = C iq ip)
    (hWq : 0 ≤ W iq) (hW : W iq < W ip)
    (lg : ℕ → ℝ) (hlg : lg iq ≤ lg ip) :
    mmUpdate n C W config lg iq < mmUpdate n C W config lg ip := by
  have hee : Real.exp (lg iq) ≤ Real.exp (lg ip) := Real.exp_le_exp.mpr hlg
  rw [mmUpdate_def, mmUpdate_def]
  set Sp := ∑ j ∈ Finset.range n,
    (if j ≠ ip ∧ 0 < C ip j
      then C ip j / (Real.exp (lg ip) + Real.exp (lg j)) else 0) with hSp
  set Sq := ∑ j ∈ Finset.range n,
    (if j ≠ iq ∧ 0 < C iq j
      then C iq j / (Real.exp (lg iq) + Real.exp (lg j)) else 0) with hSq
  have hSp0 : 0 ≤ Sp := by
    rw [hSp]
    refine Finset.sum_nonneg fun j _ => ?_
    split
    · next hcnd => exact le_of_lt (div_pos hcnd.2 (by positivity))
    · exact le_refl 0
  have hSq0 : 0 ≤ Sq := by
    rw [hSq]
    refine Finset.sum_nonneg fun j _ => ?_
    split
    · next hcnd => exact le_of_lt (div_pos hcnd.2 (by positivity))
    · exact le_refl 0
  have hSpq : Sp ≤ Sq := by
    have hq_mem : iq ∈ Finset.range n := Finset.mem_range.mpr hiq
    have hp_mem' : ip ∈ (Finset.range n).erase iq :=
      Finset.mem_erase.mpr ⟨hne, Finset.mem_range.mpr hip⟩
    have hq_mem' : iq ∈ (Finset.range n).erase ip :=
      Finset.mem_erase.mpr ⟨Ne.symm hne, hq_mem⟩
    have hp_mem : ip ∈ Finset.range n := Finset.mem_range.mpr hip
    have hterm :
        (if iq ≠ ip ∧ 0 < C ip iq
          then C ip iq / (Real.exp (lg ip) + Real.exp (lg iq)) else 0) =
        (if ip ≠ iq ∧ 0 < C iq ip
          then C iq ip / (Real.exp (lg iq) + Real.exp (lg ip)) else 0) := by
      rw [hsym, add_comm (Real.exp (lg ip)) (Real.exp (lg iq))]
      exact if_congr (and_congr_left' ne_comm) rfl rfl
    have hzp : (if ip ≠ ip ∧ 0 < C ip ip
        then C ip ip / (Real.exp (lg ip) + Real.exp (lg ip)) else 0) = 0 := by
      simp
    have hzq : (if iq ≠ iq ∧ 0 < C iq iq
        then C iq iq / (Real.exp (lg iq) + Real.exp (lg iq)) else 0) = 0 := by
      simp
    rw [hSp, hSq]
    rw [← Finset.add_sum_erase _ _ hq_mem,
      ← Finset.add_sum_erase _ _ hp_mem',
      hzp, hterm]
    rw [← Finset.add_sum_erase _
      (fun j => if j ≠ iq ∧ 0 < C iq j
        then C iq j / (Real.exp (lg iq) + Real.exp (lg j)) else 0) hp_mem,
      ← Finset.add_sum_erase _ _ hq_mem', hzq]
    rw [Finset.erase_right_comm]
    refine add_le_add_left (add_le_add_left ?_ _) _
    refine Finset.sum_le_sum fun j hj => ?_
    have hjq : j ≠ ip := (Finset.mem_erase.mp
      (Finset.mem_of_mem_erase hj)).1
    have hjp : j ≠ iq := (Finset.mem_erase.mp hj).1
    have hjn : j < n := Finset.mem_range.mp
      (Finset.mem_of_mem_erase (Finset.mem_of_mem_erase hj))
    rw [hrow j hjn hjq hjp]
    by_cases hc : 0 < C iq j
    · rw [if_pos ⟨hjq, hc⟩, if_pos ⟨hjp, hc⟩]
      have h1 : (0:ℝ) < Real.exp (lg iq) + Real.exp (lg j) := by positivity
      gcongr
    · rw [if_neg (by tauto), if_neg (by tauto)]
  have hvd : config.virtual_games_weight / (Real.exp (lg ip) + 1) ≤
      config.virtual_games_weight / (Real.exp (lg iq) + 1) := by
    have h1 : (0:ℝ) < Real.exp (lg iq) + 1 := by positivity
    gcongr
  have hDp : 0 < Sp + config.virtual_games_weight /
      (Real.exp (lg ip) + 1) :=
    add_pos_of_nonneg_of_pos hSp0 (div_pos hv (by positivity))
  have hDq : 0 < Sq + config.virtual_games_weight /
      (Real.exp (lg iq) + 1) :=
    add_pos_of_nonneg_of_pos hSq0 (div_pos hv (by positivity))
  have hDpq : Sp + config.virtual_games_weight / (Real.exp (lg ip) + 1) ≤
      Sq + config.virtual_games_weight / (Real.exp (lg iq) + 1) :=
    add_le_add hSpq hvd
  rw [if_pos hDq, if_pos hDp]
  have hAq : (0:ℝ) < W iq + 0.5 * config.virtual_games_weight := by
    nlinarith
  apply Real.log_lt_log (div_pos hAq hDq)
  calc (W iq + 0.5 * config.virtual_games_weight) /
        (Sq + config.virtual_games_weight / (Real.exp (lg iq) + 1))
      ≤ (W iq + 0.5 * config.virtual_games_weight) /
        (Sp + config.virtual_games_weight / (Real.exp (lg ip) + 1)) := by
        gcongr
    _ < (W ip + 0.5 * config.virtual_games_weight) /
        (Sp + config.virtual_games_weight / (Real.exp (lg ip) + 1)) := by
        gcongr

lemma mmStep_strict_mono (n : ℕ) (C : ℕ → ℕ → ℝ) (W : ℕ → ℝ)
    (config : RatingSettings) (ip iq : ℕ)
    (hv : 0 < config.virtual_games_weight)
    (hip : ip < n) (hiq : iq < n) (hne : ip ≠ iq)
    (hrow : ∀ j, j < n → j ≠ ip → j ≠ iq → C ip j = C iq j)
    (hsym : C ip iq = C iq ip)
    (hWq : 0 ≤ W iq) (hW : W iq < W ip)
    (lg : ℕ → ℝ) (hlg : lg iq ≤ lg ip) :
    mmStep n C W config lg iq < mmStep n C W config lg ip := by
  rw [mmStep_apply, mmStep_apply]
  exact sub_lt_sub_right (mmUpdate_strict_mono n C W config ip iq hv hip hiq
    hne hrow hsym hWq hW lg hlg) _

lemma mmLoop_strict_mono (n : ℕ) (C : ℕ → ℕ → ℝ) (W : ℕ → ℝ)
    (config : RatingSettings) (ip iq : ℕ)
    (hv : 0 < config.virtual_games_weight)
    (hip : ip < n) (hiq : iq < n) (hne : ip ≠ iq)
    (hrow : ∀ j, j < n → j ≠ ip → j ≠ iq → C ip j = C iq j)
    (hsym : C ip iq = C iq ip)
    (hWq : 0 ≤ W iq) (hW : W iq < W ip) :
    ∀ (fuel : ℕ) (lg : ℕ → ℝ), lg iq ≤ lg ip →
      mmLoop n C W config (fuel + 1) lg iq <
        mmLoop n C W config (fuel + 1) lg ip := by
  intro fuel
  induction fuel with
  | zero =>
      intro lg hlg
      rw [mmLoop]
      split
      · exact mmStep_strict_mono n C W config ip iq hv hip hiq hne hrow hsym
          hWq hW lg hlg
      · exact mmStep_strict_mono n C W config ip iq hv hip hiq hne hrow hsym
          hWq hW lg hlg
  | succ f ih =>
      intro lg hlg
      rw [mmLoop]
      split
      · exact mmStep_strict_mono n C W config ip iq hv hip hiq hne hrow hsym
          hWq hW lg hlg
      · exact ih (mmStep n C W config lg)
          (le_of_lt (mmStep_strict_mono n C W config ip iq hv hip hiq hne
            hrow hsym hWq hW lg hlg))

lemma mm_algorithm_strict_mono (n : ℕ) (C : ℕ → ℕ → ℝ) (W : ℕ → ℝ)
    (config : RatingSettings) (ip iq : ℕ)
    (hv : 0 < config.virtual_games_weight)
    (hit : 1 ≤ config.max_iterations)
    (hip : ip < n) (hiq : iq < n) (hne : ip ≠ iq)
    (hrow : ∀ j, j < n → j ≠ ip → j ≠ iq → C ip j = C iq j)
    (hsym : C ip iq = C iq ip)
    (hWq : 0 ≤ W iq) (hW : W iq < W ip) :
    mm_algorithm n C W config iq < mm_algorithm n C W config ip := by
  obtain ⟨k, hk⟩ : ∃ k, config.max_iterations = k + 1 :=
    ⟨config.max_iterations - 1, by omega⟩
  rw [mm_algorithm, hk]
  exact mmLoop_strict_mono n C W config ip iq hv hip hiq hne hrow hsym
    hWq hW k (fun _ => 0) (le_refl 0)

/-! ### Monotonicity through the Blender -/

lemma blendedScore_strict_mono (config : RatingSettings) (g : ℤ)
    (x y : ℝ) (hxy : x < y) (hgpos : 0 < g) :
    blendedScore x g config < blendedScore y g config := by
  have hraw : config.starter_rating + x * 100 / Real.log 2 <
      config.starter_rating + y * 100 / Real.log 2 := by
    have h2 := log_two_pos
    gcongr
  rw [blendedScore, blendedScore]
  split
  · next hest =>
      have hestpos : 0 < config.established_games := lt_trans hgpos hest
      have hestR : (0:ℝ) < ((config.established_games : ℤ) : ℝ) := by
        exact_mod_cast hestpos
      have hml : 0 < 1 -
          ((config.established_games - g : ℤ) : ℝ) /
            ((config.established_games : ℤ) : ℝ) := by
        rw [sub_pos, div_lt_one hestR]
        push_cast
        have hgR : (0:ℝ) < (g : ℝ) := by exact_mod_cast hgpos
        linarith
      have hmul := mul_lt_mul_of_pos_left hraw hml
      linarith
  · exact hraw

lemma ratingValue_strict_mono (config : RatingSettings) (g : ℤ)
    (x y : ℝ) (hxy : x < y)
    (hmin : config.min_ranked_games ≤ g) (hgpos : 0 < g)
    (h0 : 0 ≤ blendedScore x g config)
    (h2 : blendedScore y g config ≤ 2000) :
    ratingValue x g config < ratingValue y g config := by
  have hbs := blendedScore_strict_mono config g x y hxy hgpos
  rw [ratingValue, if_neg (not_lt.mpr hmin),
    ratingValue, if_neg (not_lt.mpr hmin), clampR, clampR]
  rw [max_eq_left h0, max_eq_left (le_trans h0 (le_of_lt hbs)),
    min_eq_left (le_trans (le_of_lt hbs) h2), min_eq_left h2]
  exact hbs

lemma calculate_ratings_getD (games : List GameResult)
    (config : RatingSettings) (idx : ℕ)
    (h : idx < (extract_player_ids games).length) :
    (calculate_ratings games config).getD idx dfltRating =
      { player_id := (extract_player_ids games).getD idx 0
        rating_type := "temp"
        rating := ratingValue (solverOf games config idx)
          (countOf games idx) config
        games_played := countOf games idx
        confidence_level :=
          ConfidenceLevel.from_games_played (countOf games idx) } := by
  rw [calculate_ratings, build_player_ratings]
  rw [List.getD_eq_getElem?_getD, List.getElem?_map, List.getElem?_range h]
  rfl

/-- Claim C4 as amended: among two competitors of the same input with
identical third-party comparison rows and identical game counts, the one
with strictly more (weighted) wins gets the strictly higher solver
output, and hence the strictly higher published score, provided the
input weights are nonnegative, the configuration has a positive virtual
anchor and at least one iteration, the shared game count reaches
`min_ranked_games`, and neither blended score is cut by the clamp. -/
theorem claim_C4_more_wins_higher_score (games : List GameResult)
    (config : RatingSettings) (ip iq : ℕ)
    (hip : ip < (extract_player_ids games).length)
    (hiq : iq < (extract_player_ids games).length)
    (hne : ip ≠ iq)
    (hv : 0 < config.virtual_games_weight)
    (hit : 1 ≤ config.max_iterations)
    (hwts : ∀ g ∈ games, 0 ≤ g.weight)
    (hrow : ∀ j, j < (extract_player_ids games).length → j ≠ ip → j ≠ iq →
      (solverInput games).1 ip j = (solverInput games).1 iq j)
    (hW : (solverInput games).2 iq < (solverInput games).2 ip)
    (hcount : countOf games iq = countOf games ip)
    (hmin : config.min_ranked_games ≤ countOf games ip)
    (hgpos : 0 < countOf games ip)
    (h0 : 0 ≤ blendedScore (solverOf games config iq)
      (countOf games ip) config)
    (h2 : blendedScore (solverOf games config ip)
      (countOf games ip) config ≤ 2000) :
    ((calculate_ratings games config).getD iq dfltRating).rating <
      ((calculate_ratings games config).getD ip dfltRating).rating := by
  have hmm : solverOf games config iq < solverOf games config ip :=
    mm_algorithm_strict_mono (extract_player_ids games).length
      (solverInput games).1 (solverInput games).2 config ip iq hv hit hip hiq
      hne hrow (build_comparison_symm games _ ip iq)
      (build_wins_nonneg games _ hwts iq) hW
  rw [calculate_ratings_getD games config ip hip,
    calculate_ratings_getD games config iq hiq]
  show ratingValue (solverOf games config iq) (countOf games iq) config <
    ratingValue (solverOf games config ip) (countOf games ip) config
  rw [hcount]
  exact ratingValue_strict_mono config (countOf games ip) _ _ hmm hmin
    hgpos h0 h2

/-! ### Concrete evaluations for the monotonicity claim -/

lemma ids4 : extract_player_ids games4 = [1, 2, 3] := by decide

lemma ids2 : extract_player_ids games2 = [1, 2] := by decide

/-- Counterexample for C4 as stated: in `games4` players 1 (index 0) and
2 (index 1) have the identical opponent row, identical game counts, and
player 1 has strictly more wins, yet under the default configuration
(minRankedGames = 50) both published scores are the starter rating, so
the score is not strictly higher. -/
theorem claim_C4_counterexample :
    (solverInput games4).1 0 2 = (solverInput games4).1 1 2 ∧
    (solverInput games4).2 1 < (solverInput games4).2 0 ∧
    countOf games4 0 = countOf games4 1 ∧
    ((calculate_ratings games4 RatingSettings.default).getD 0
        dfltRating).rating =
      ((calculate_ratings games4 RatingSettings.default).getD 1
        dfltRating).rating := by
  have h1 : (extract_player_ids games4).indexOf (1 : ℤ) = 0 := by decide
  have h2 : (extract_player_ids games4).indexOf (2 : ℤ) = 1 := by decide
  have h3 : (extract_player_ids games4).indexOf (3 : ℤ) = 2 := by decide
  have hC : ∀ a b : ℕ, (solverInput games4).1 a b =
      (if a = 0 ∧ b = 2 then (1:ℝ) else 0) +
      (if a = 2 ∧ b = 0 then (1:ℝ) else 0) +
      (if a = 2 ∧ b = 1 then (1:ℝ) else 0) +
      (if a = 1 ∧ b = 2 then (1:ℝ) else 0) := by
    intro a b
    show (0:ℝ) +
      (if a = (extract_player_ids games4).indexOf (1:ℤ) ∧
          b = (extract_player_ids games4).indexOf (3:ℤ) then (1:ℝ) else 0) +
      (if a = (extract_player_ids games4).indexOf (3:ℤ) ∧
          b = (extract_player_ids games4).indexOf (1:ℤ) then (1:ℝ) else 0) +
      (if a = (extract_player_ids games4).indexOf (3:ℤ) ∧
          b = (extract_player_ids games4).indexOf (2:ℤ) then (1:ℝ) else 0) +
      (if a = (extract_player_ids games4).indexOf (2:ℤ) ∧
          b = (extract_player_ids games4).indexOf (3:ℤ) then (1:ℝ) else 0)
        = _
    rw [h1, h2, h3]
    ring
  have hWf : ∀ a : ℕ, (solverInput games4).2 a =
      (if a = 0 then (1:ℝ) else 0) + (if a = 2 then (1:ℝ) else 0) := by
    intro a
    show (0:ℝ) +
      (if a = (extract_player_ids games4).indexOf (1:ℤ) then (1:ℝ) else 0) +
      (if a = (extract_player_ids games4).indexOf (3:ℤ) then (1:ℝ) else 0)
        = _
    rw [h1, h3]
    ring
  refine ⟨by rw [hC, hC]; norm_num, by rw [hWf, hWf]; norm_num,
    by decide, ?_⟩
  have hlen : (extract_player_ids games4).length = 3 := by rw [ids4]; rfl
  rw [calculate_ratings_getD games4 _ 0 (by rw [hlen]; norm_num),
    calculate_ratings_getD games4 _ 1 (by rw [hlen]; norm_num)]
  show ratingValue (solverOf games4 RatingSettings.default 0)
      (countOf games4 0) RatingSettings.default =
    ratingValue (solverOf games4 RatingSettings.default 1)
      (countOf games4 1) RatingSettings.default
  have hc0 : countOf games4 0 = 1 := by decide
  have hc1 : countOf games4 1 = 1 := by decide
  rw [hc0, hc1, ratingValue, if_pos (by decide), ratingValue,
    if_pos (by decide)]

lemma solverInput2_C (a b : ℕ) : (solverInput games2).1 a b =
    (if a = 0 ∧ b = 1 then (1:ℝ) else 0) +
    (if a = 1 ∧ b = 0 then (1:ℝ) else 0) := by
  have h1 : (extract_player_ids games2).indexOf (1 : ℤ) = 0 := by decide
  have h2 : (extract_player_ids games2).indexOf (2 : ℤ) = 1 := by decide
  show (0:ℝ) +
    (if a = (extract_player_ids games2).indexOf (1:ℤ) ∧
        b = (extract_player_ids games2).indexOf (2:ℤ) then (1:ℝ) else 0) +
    (if a = (extract_player_ids games2).indexOf (2:ℤ) ∧
        b = (extract_player_ids games2).indexOf (1:ℤ) then (1:ℝ) else 0) = _
  rw [h1, h2]
  ring

lemma solverInput2_W (a : ℕ) : (solverInput games2).2 a =
    if a = 0 then (1:ℝ) else 0 := by
  have h1 : (extract_player_ids games2).indexOf (1 : ℤ) = 0 := by decide
  show (0:ℝ) +
    (if a = (extract_player_ids games2).indexOf (1:ℤ) then (1:ℝ) else 0) = _
  rw [h1, zero_add]

lemma mmUpdate2_0 :
    mmUpdate 2 (solverInput games2).1 (solverInput games2).2 cfgW4
      (fun _ => 0) 0 = Real.log (4/3) := by
  rw [mmUpdate_def, Finset.sum_range_succ, Finset.sum_range_one]
  rw [solverInput2_C 0 0, solverInput2_C 0 1, solverInput2_W 0]
  norm_num [Real.exp_zero, cfgW4]

lemma mmUpdate2_1 :
    mmUpdate 2 (solverInput games2).1 (solverInput games2).2 cfgW4
      (fun _ => 0) 1 = Real.log (2/3) := by
  rw [mmUpdate_def, Finset.sum_range_succ, Finset.sum_range_one]
  rw [solverInput2_C 1 0, solverInput2_C 1 1, solverInput2_W 1]
  norm_num [Real.exp_zero, cfgW4]

lemma solver2_eval : solverOf games2 cfgW4 =
    mmStep 2 (solverInput games2).1 (solverInput games2).2 cfgW4
      (fun _ => 0) := by
  have hlen : (extract_player_ids games2).length = 2 := by rw [ids2]; rfl
  rw [solverOf, hlen, mm_algorithm]
  show mmLoop 2 _ _ cfgW4 (0 + 1) (fun _ => 0) = _
  rw [mmLoop]
  exact ite_self _

lemma log_ratio_id : Real.log ((4:ℝ)/3) - Real.log ((2:ℝ)/3) =
    Real.log 2 := by
  rw [← Real.log_div (by norm_num) (by norm_num)]
  norm_num

lemma solver2_0 : solverOf games2 cfgW4 0 = Real.log 2 / 2 := by
  rw [solver2_eval, mmStep_apply, Finset.sum_range_succ,
    Finset.sum_range_one, mmUpdate2_0, mmUpdate2_1]
  have h := log_ratio_id
  push_cast
  linarith

lemma solver2_1 : solverOf games2 cfgW4 1 = -(Real.log 2) / 2 := by
  rw [solver2_eval, mmStep_apply, Finset.sum_range_succ,
    Finset.sum_range_one, mmUpdate2_0, mmUpdate2_1]
  have h := log_ratio_id
  push_cast
  linarith

lemma blend2_0 : blendedScore (solverOf games2 cfgW4 0) 1 cfgW4 = 550 := by
  rw [solver2_0, blendedScore, if_neg (by decide)]
  show (500:ℝ) + Real.log 2 / 2 * 100 / Real.log 2 = 550
  have h := log_two_pos
  field_simp
  ring

lemma blend2_1 : blendedScore (solverOf games2 cfgW4 1) 1 cfgW4 = 450 := by
  rw [solver2_1, blendedScore, if_neg (by decide)]
  show (500:ℝ) + -(Real.log 2) / 2 * 100 / Real.log 2 = 450
  have h := log_two_pos
  field_simp
  ring

/-- Witness for the amended C4 at the concrete one-game input: the
winner (index 0) has strictly more wins and receives the strictly
higher published score. -/
theorem claim_C4_witness :
    (solverInput games2).2 1 < (solverInput games2).2 0 ∧
    ((calculate_ratings games2 cfgW4).getD 1 dfltRating).rating <
      ((calculate_ratings games2 cfgW4).getD 0 dfltRating).rating := by
  have hlen : (extract_player_ids games2).length = 2 := by rw [ids2]; rfl
  have hW : (solverInput games2).2 1 < (solverInput games2).2 0 := by
    rw [solverInput2_W, solverInput2_W]
    norm_num
  have hc : countOf games2 0 = 1 := by decide
  refine ⟨hW, claim_C4_more_wins_higher_score games2 cfgW4 0 1
    (by rw [hlen]; norm_num) (by rw [hlen]; norm_num) (by norm_num)
    (by norm_num [cfgW4]) (by norm_num [cfgW4]) ?_ ?_ hW (by decide)
    (by decide) (by decide) ?_ ?_⟩
  · intro g hg
    rcases List.mem_singleton.mp hg with rfl
    norm_num
  · intro j hj hj0 hj1
    rw [hlen] at hj
    omega
  · rw [hc, blend2_1]
    norm_num
  · rw [hc, blend2_0]
    norm_num

/-! ### The three-player transitivity scenario -/

lemma idsABC : extract_player_ids gamesABC = [1, 2, 3] := by decide

lemma solverInputABC_C (a b : ℕ) : (solverInput gamesABC).1 a b =
    (if a = 0 ∧ b = 1 then (1:ℝ) else 0) +
    (if a = 1 ∧ b = 0 then (1:ℝ) else 0) +
    (if a = 1 ∧ b = 2 then (1:ℝ) else 0) +
    (if a = 2 ∧ b = 1 then (1:ℝ) else 0) := by
  have h1 : (extract_player_ids gamesABC).indexOf (1 : ℤ) = 0 := by decide
  have h2 : (extract_player_ids gamesABC).indexOf (2 : ℤ) = 1 := by decide
  have h3 : (extract_player_ids gamesABC).indexOf (3 : ℤ) = 2 := by decide
  show (0:ℝ) +
    (if a = (extract_player_ids gamesABC).indexOf (1:ℤ) ∧
        b = (extract_player_ids gamesABC).indexOf (2:ℤ) then (1:ℝ) else 0) +
    (if a = (extract_player_ids gamesABC).indexOf (2:ℤ) ∧
        b = (extract_player_ids gamesABC).indexOf (1:ℤ) then (1:ℝ) else 0) +
    (if a = (extract_player_ids gamesABC).indexOf (2:ℤ) ∧
        b = (extract_player_ids gamesABC).indexOf (3:ℤ) then (1:ℝ) else 0) +
    (if a = (extract_player_ids gamesABC).indexOf (3:ℤ) ∧
        b = (extract_player_ids gamesABC).indexOf (2:ℤ) then (1:ℝ) else 0)
      = _
  rw [h1, h2, h3]
  ring

lemma solverInputABC_W (a : ℕ) : (solverInput gamesABC).2 a =
    (if a = 0 then (1:ℝ) else 0) + (if a = 1 then (1:ℝ) else 0) := by
  have h1 : (extract_player_ids gamesABC).indexOf (1 : ℤ) = 0 := by decide
  have h2 : (extract_player_ids gamesABC).indexOf (2 : ℤ) = 1 := by decide
  show (0:ℝ) +
    (if a = (extract_player_ids gamesABC).indexOf (1:ℤ) then (1:ℝ) else 0) +
    (if a = (extract_player_ids gamesABC).indexOf (2:ℤ) then (1:ℝ) else 0)
      = _
  rw [h1, h2]
  ring

lemma cABC_00 : (solverInput gamesABC).1 0 0 = 0 := by
  rw [solverInputABC_C]; norm_num

lemma cABC_01 : (solverInput gamesABC).1 0 1 = 1 := by
  rw [solverInputABC_C]; norm_num

lemma cABC_02 : (solverInput gamesABC).1 0 2 = 0 := by
  rw [solverInputABC_C]; norm_num

lemma cABC_10 : (solverInput gamesABC).1 1 0 = 1 := by
  rw [solverInputABC_C]; norm_num

lemma cABC_11 : (solverInput gamesABC).1 1 1 = 0 := by
  rw [solverInputABC_C]; norm_num

lemma cABC_12 : (solverInput gamesABC).1 1 2 = 1 := by
  rw [solverInputABC_C]; norm_num

lemma cABC_20 : (solverInput gamesABC).1 2 0 = 0 := by
  rw [solverInputABC_C]; norm_num

lemma cABC_21 : (solverInput gamesABC).1 2 1 = 1 := by
  rw [solverInputABC_C]; norm_num

lemma cABC_22 : (solverInput gamesABC).1 2 2 = 0 := by
  rw [solverInputABC_C]; norm_num

lemma wABC_0 : (solverInput gamesABC).2 0 = 1 := by
  rw [solverInputABC_W]; norm_num

lemma wABC_1 : (solverInput gamesABC).2 1 = 1 := by
  rw [solverInputABC_W]; norm_num

lemma wABC_2 : (solverInput gamesABC).2 2 = 0 := by
  rw [solverInputABC_W]; norm_num

lemma mmUpdateABC_0 (config : RatingSettings)
    (hv : 0 < config.virtual_games_weight) (lg : ℕ → ℝ) :
    mmUpdate 3 (solverInput gamesABC).1 (solverInput gamesABC).2 config
      lg 0 =
    Real.log ((1 + 0.5 * config.virtual_games_weight) /
      (1 / (Real.exp (lg 0) + Real.exp (lg 1)) +
        config.virtual_games_weight / (Real.exp (lg 0) + 1))) := by
  rw [mmUpdate_def, Finset.sum_range_succ, Finset.sum_range_succ,
    Finset.sum_range_one, cABC_00, cABC_01, cABC_02, wABC_0]
  rw [if_neg (by norm_num : ¬((0:ℕ) ≠ 0 ∧ (0:ℝ) < 0)),
    if_pos (by norm_num : ((1:ℕ) ≠ 0 ∧ (0:ℝ) < 1)),
    if_neg (by norm_num : ¬((2:ℕ) ≠ 0 ∧ (0:ℝ) < 0))]
  rw [zero_add, add_zero]
  rw [if_pos (add_pos (by positivity) (div_pos hv (by positivity)))]

lemma mmUpdateABC_1 (config : RatingSettings)
    (hv : 0 < config.virtual_games_weight) (lg : ℕ → ℝ) :
    mmUpdate 3 (solverInput gamesABC).1 (solverInput gamesABC).2 config
      lg 1 =
    Real.log ((1 + 0.5 * config.virtual_games_weight) /
      (1 / (Real.exp (lg 1) + Real.exp (lg 0)) +
        1 / (Real.exp (lg 1) + Real.exp (lg 2)) +
        config.virtual_games_weight / (Real.exp (lg 1) + 1))) := by
  rw [mmUpdate_def, Finset.sum_range_succ, Finset.sum_range_succ,
    Finset.sum_range_one, cABC_10, cABC_11, cABC_12, wABC_1]
  rw [if_pos (by norm_num : ((0:ℕ) ≠ 1 ∧ (0:ℝ) < 1)),
    if_neg (by norm_num : ¬((1:ℕ) ≠ 1 ∧ (0:ℝ) < 0)),
    if_pos (by norm_num : ((2:ℕ) ≠ 1 ∧ (0:ℝ) < 1))]
  rw [add_zero]
  rw [if_pos (add_pos (add_pos (by positivity) (by positivity))
    (div_pos hv (by positivity)))]

lemma mmUpdateABC_2 (config : RatingSettings)
    (hv : 0 < config.virtual_games_weight) (lg : ℕ → ℝ) :
    mmUpdate 3 (solverInput gamesABC).1 (solverInput gamesABC).2 config
      lg 2 =
    Real.log ((0.5 * config.virtual_games_weight) /
      (1 / (Real.exp (lg 2) + Real.exp (lg 1)) +
        config.virtual_games_weight / (Real.exp (lg 2) + 1))) := by
  rw [mmUpdate_def, Finset.sum_range_succ, Finset.sum_range_succ,
    Finset.sum_range_one, cABC_20, cABC_21, cABC_22, wABC_2]
  rw [if_neg (by norm_num : ¬((0:ℕ) ≠ 2 ∧ (0:ℝ) < 0)),
    if_pos (by norm_num : ((1:ℕ) ≠ 2 ∧ (0:ℝ) < 1)),
    if_neg (by norm_num : ¬((2:ℕ) ≠ 2 ∧ (0:ℝ) < 0))]
  rw [zero_add, add_zero]
  rw [if_pos (add_pos (by positivity) (div_pos hv (by positivity)))]
  norm_num

lemma sum_range_three (f : ℕ → ℝ) :
    ∑ j ∈ Finset.range 3, f j = f 0 + f 1 + f 2 := by
  rw [Finset.sum_range_succ, Finset.sum_range_succ, Finset.sum_range_one]

lemma mmUpdateABC_order (config : RatingSettings)
    (hv : 0 < config.virtual_games_weight) (lg : ℕ → ℝ)
    (h01 : lg 1 ≤ lg 0) (h12 : lg 2 ≤ lg 1)
    (hsum : lg 0 + lg 1 + lg 2 = 0) :
    (mmUpdate 3 (solverInput gamesABC).1 (solverInput gamesABC).2 config
        lg 1 <
      mmUpdate 3 (solverInput gamesABC).1 (solverInput gamesABC).2 config
        lg 0) ∧
    (mmUpdate 3 (solverInput gamesABC).1 (solverInput gamesABC).2 config
        lg 2 <
      mmUpdate 3 (solverInput gamesABC).1 (solverInput gamesABC).2 config
        lg 1) := by
  have hvhalf : (0:ℝ) < 0.5 * config.virtual_games_weight := by linarith
  have hA : (0:ℝ) < 1 + 0.5 * config.virtual_games_weight := by linarith
  have he0 : (0:ℝ) < Real.exp (lg 0) := Real.exp_pos _
  have he1 : (0:ℝ) < Real.exp (lg 1) := Real.exp_pos _
  have he2 : (0:ℝ) < Real.exp (lg 2) := Real.exp_pos _
  have h10 : Real.exp (lg 1) ≤ Real.exp (lg 0) := Real.exp_le_exp.mpr h01
  have h21 : Real.exp (lg 2) ≤ Real.exp (lg 1) := Real.exp_le_exp.mpr h12
  have h0one : (1:ℝ) ≤ Real.exp (lg 0) := by
    calc (1:ℝ) = Real.exp 0 := Real.exp_zero.symm
      _ ≤ Real.exp (lg 0) := Real.exp_le_exp.mpr (by linarith)
  have h2one : Real.exp (lg 2) ≤ 1 := by
    calc Real.exp (lg 2) ≤ Real.exp 0 := Real.exp_le_exp.mpr (by linarith)
      _ = 1 := Real.exp_zero
  have hc10 : Real.exp (lg 1) + Real.exp (lg 0) =
      Real.exp (lg 0) + Real.exp (lg 1) := add_comm _ _
  have hc21 : Real.exp (lg 2) + Real.exp (lg 1) =
      Real.exp (lg 1) + Real.exp (lg 2) := add_comm _ _
  rw [mmUpdateABC_0 config hv lg, mmUpdateABC_1 config hv lg,
    mmUpdateABC_2 config hv lg, hc10, hc21]
  have hD0 : (0:ℝ) < 1 / (Real.exp (lg 0) + Real.exp (lg 1)) +
      config.virtual_games_weight / (Real.exp (lg 0) + 1) :=
    add_pos (by positivity) (div_pos hv (by positivity))
  have hD1 : (0:ℝ) < 1 / (Real.exp (lg 0) + Real.exp (lg 1)) +
      1 / (Real.exp (lg 1) + Real.exp (lg 2)) +
      config.virtual_games_weight / (Real.exp (lg 1) + 1) :=
    add_pos (add_pos (by positivity) (by positivity))
      (div_pos hv (by positivity))
  have hD2 : (0:ℝ) < 1 / (Real.exp (lg 1) + Real.exp (lg 2)) +
      config.virtual_games_weight / (Real.exp (lg 2) + 1) :=
    add_pos (by positivity) (div_pos hv (by positivity))
  have hvd01 : config.virtual_games_weight / (Real.exp (lg 0) + 1) ≤
      config.virtual_games_weight / (Real.exp (lg 1) + 1) := by
    gcongr
  have hD0D1 : 1 / (Real.exp (lg 0) + Real.exp (lg 1)) +
      config.virtual_games_weight / (Real.exp (lg 0) + 1) <
      1 / (Real.exp (lg 0) + Real.exp (lg 1)) +
      1 / (Real.exp (lg 1) + Real.exp (lg 2)) +
      config.virtual_games_weight / (Real.exp (lg 1) + 1) := by
    have hb : (0:ℝ) < 1 / (Real.exp (lg 1) + Real.exp (lg 2)) := by
      positivity
    linarith
  constructor
  · exact Real.log_lt_log (div_pos hA hD1)
      (div_lt_div_of_pos_left hA hD0 hD0D1)
  · apply Real.log_lt_log (div_pos hvhalf hD2)
    rw [div_lt_div_iff hD2 hD1]
    have ha1 : 1 / (Real.exp (lg 0) + Real.exp (lg 1)) ≤ 1 := by
      rw [div_le_one (by positivity)]
      linarith
    have hA2half : config.virtual_games_weight / 2 ≤
        config.virtual_games_weight / (Real.exp (lg 2) + 1) := by
      gcongr
      linarith
    have hA12 : config.virtual_games_weight / (Real.exp (lg 1) + 1) ≤
        config.virtual_games_weight / (Real.exp (lg 2) + 1) := by
      gcongr
    have hbpos : (0:ℝ) < 1 / (Real.exp (lg 1) + Real.exp (lg 2)) := by
      positivity
    nlinarith [mul_le_mul_of_nonneg_left ha1 (le_of_lt hvhalf),
      mul_le_mul_of_nonneg_left hA12 (le_of_lt hvhalf),
      mul_le_mul_of_nonneg_left hA2half (le_of_lt hvhalf),
      mul_pos hvhalf hbpos, hbpos, hv]

lemma mmStepABC_order (config : RatingSettings)
    (hv : 0 < config.virtual_games_weight) (lg : ℕ → ℝ)
    (h01 : lg 1 ≤ lg 0) (h12 : lg 2 ≤ lg 1)
    (hsum : lg 0 + lg 1 + lg 2 = 0) :
    (mmStep 3 (solverInput gamesABC).1 (solverInput gamesABC).2 config
        lg 1 <
      mmStep 3 (solverInput gamesABC).1 (solverInput gamesABC).2 config
        lg 0) ∧
    (mmStep 3 (solverInput gamesABC).1 (solverInput gamesABC).2 config
        lg 2 <
      mmStep 3 (solverInput gamesABC).1 (solverInput gamesABC).2 config
        lg 1) := by
  obtain ⟨hu01, hu12⟩ := mmUpdateABC_order config hv lg h01 h12 hsum
  constructor
  · rw [mmStep_apply, mmStep_apply]
    exact sub_lt_sub_right hu01 _
  · rw [mmStep_apply, mmStep_apply]
    exact sub_lt_sub_right hu12 _

lemma mmStepABC_sum (config : RatingSettings) (lg : ℕ → ℝ) :
    mmStep 3 (solverInput gamesABC).1 (solverInput gamesABC).2 config
        lg 0 +
      mmStep 3 (solverInput gamesABC).1 (solverInput gamesABC).2 config
        lg 1 +
      mmStep 3 (solverInput gamesABC).1 (solverInput gamesABC).2 config
        lg 2 = 0 := by
  rw [← sum_range_three]
  exact sum_mmStep 3 (by norm_num) _ _ config lg

lemma mmLoopABC_order (config : RatingSettings)
    (hv : 0 < config.virtual_games_weight) :
    ∀ (fuel : ℕ) (lg : ℕ → ℝ), lg 1 ≤ lg 0 → lg 2 ≤ lg 1 →
      lg 0 + lg 1 + lg 2 = 0 →
      (mmLoop 3 (solverInput gamesABC).1 (solverInput gamesABC).2 config
          (fuel + 1) lg 1 <
        mmLoop 3 (solverInput gamesABC).1 (solverInput gamesABC).2 config
          (fuel + 1) lg 0) ∧
      (mmLoop 3 (solverInput gamesABC).1 (solverInput gamesABC).2 config
          (fuel + 1) lg 2 <
        mmLoop 3 (solverInput gamesABC).1 (solverInput gamesABC).2 config
          (fuel + 1) lg 1) := by
  intro fuel
  induction fuel with
  | zero =>
      intro lg h01 h12 hsum
      rw [mmLoop]
      split
      · exact mmStepABC_order config hv lg h01 h12 hsum
      · exact mmStepABC_order config hv lg h01 h12 hsum
  | succ f ih =>
      intro lg h01 h12 hsum
      obtain ⟨hs01, hs12⟩ := mmStepABC_order config hv lg h01 h12 hsum
      rw [mmLoop]
      split
      · exact ⟨hs01, hs12⟩
      · exact ih _ (le_of_lt hs01) (le_of_lt hs12)
          (mmStepABC_sum config lg)

/-- Claim C3 as amended: for the two matches A beats B and B beats C
(weight 1 each, no A-C match) and any configuration with a positive
`virtual_games_weight` and at least one iteration, the solver orders the
three competitors strictly: A (index 0) above B (index 1) above C
(index 2), even though A and C never met. -/
theorem claim_C3_virtual_anchor_orders (config : RatingSettings)
    (hv : 0 < config.virtual_games_weight)
    (hit : 1 ≤ config.max_iterations) :
    solverABC config 1 < solverABC config 0 ∧
    solverABC config 2 < solverABC config 1 := by
  obtain ⟨k, hk⟩ : ∃ k, config.max_iterations = k + 1 :=
    ⟨config.max_iterations - 1, by omega⟩
  have hlen : (extract_player_ids gamesABC).length = 3 := by
    rw [idsABC]; rfl
  rw [solverABC, solverOf, hlen, mm_algorithm, hk]
  exact mmLoopABC_order config hv k (fun _ => 0) le_rfl le_rfl
    (by norm_num)

/-- Counterexample for C3 as stated: with `virtual_games_weight > 0`
but a zero iteration budget the solver returns the all-zero initial
vector, so no strict ordering holds. -/
theorem claim_C3_counterexample :
    0 < cfgIter0.virtual_games_weight ∧
    ¬ solverABC cfgIter0 1 < solverABC cfgIter0 0 := by
  have h0 : solverABC cfgIter0 0 = 0 := rfl
  have h1 : solverABC cfgIter0 1 = 0 := rfl
  refine ⟨by norm_num [cfgIter0], ?_⟩
  rw [h0, h1]
  exact lt_irrefl 0

/-- Witness for the amended C3 at a concrete configuration with one
iteration. -/
theorem claim_C3_witness :
    0 < cfgIter1.virtual_games_weight ∧ 1 ≤ cfgIter1.max_iterations ∧
    (solverABC cfgIter1 1 < solverABC cfgIter1 0 ∧
      solverABC cfgIter1 2 < solverABC cfgIter1 1) :=
  ⟨by norm_num [cfgIter1], by norm_num [cfgIter1],
    claim_C3_virtual_anchor_orders cfgIter1 (by norm_num [cfgIter1])
      (by norm_num [cfgIter1])⟩

end PoolRanking
